import Mathlib

/-!
Verification of the `csniff` Bluetooth baseband sniffer core
(`src/csniff/basesniffmodule.c`): the vendor command codec, the frontline
frame decoder, the LMP decoder, the pairing observer and the HCI dump
writer, shallowly embedded as executable Lean functions over byte lists.

Bytes are modelled as `Nat` (each in `0..255` in concrete inputs), buffers
as `List Nat`, fallible paths (`assert` / `abort` in the C source) as
`Option`, and the console / dump side effects as an explicit event list.
-/

namespace Csniff

/-- Modelled from the spec: the constants of the missing header
`basesniffmodule.h`.  LMP opcodes are the standard Bluetooth values;
the pairing-mask bits are the `GOT_*` macros defined in
`basesniffmodule.c` itself. -/
def LMP_IN_RAND : Nat := 49

/-- LMP_comb_key opcode. -/
def LMP_COMB_KEY : Nat := 9

/-- LMP_au_rand opcode. -/
def LMP_AU_RAND : Nat := 11

/-- LMP_sres opcode. -/
def LMP_SRES : Nat := 12

/-- `LMP_TID_MASK`: the transaction-id bit of the first LMP byte. -/
def LMP_TID_MASK : Nat := 1

/-- `LMP_OP1_SHIFT`: op1 is the first LMP byte shifted right by one. -/
def LMP_OP1_SHIFT : Nat := 1

/-- `GOT_IN_RAND = 1 << 1` (from `basesniffmodule.c`). -/
def GOT_IN_RAND : Nat := 2

/-- `GOT_COMB1 = 1 << 2`. -/
def GOT_COMB1 : Nat := 4

/-- `GOT_COMB2 = 1 << 3`. -/
def GOT_COMB2 : Nat := 8

/-- `GOT_AU_RAND1 = 1 << 4`. -/
def GOT_AU_RAND1 : Nat := 16

/-- `GOT_SRES1 = 1 << 5`. -/
def GOT_SRES1 : Nat := 32

/-- `GOT_AU_RAND2 = 1 << 6`. -/
def GOT_AU_RAND2 : Nat := 64

/-- `GOT_SRES2 = 1 << 7`. -/
def GOT_SRES2 : Nat := 128

/-- Modelled from the spec: frontline header-length variant for BC2
chips (missing header `basesniffmodule.h`; the spec fixes the set of
two legal values). -/
def HLEN_BC2 : Nat := 14

/-- Modelled from the spec: frontline header-length variant for BC4. -/
def HLEN_BC4 : Nat := 15

/-- Modelled from the spec: bitfield layout of the frontline header
(§4.3 of the spec; the numeric shifts come from the missing header). -/
def FP_TYPE_SHIFT : Nat := 3

/-- Frontline type mask (4 bits). -/
def FP_TYPE_MASK : Nat := 0xF

/-- Frontline address mask (3 bits). -/
def FP_ADDR_MASK : Nat := 0x7

/-- 27-bit clock mask. -/
def FP_CLOCK_MASK : Nat := 0x7FFFFFF

/-- Status nibble shift of the clock word. -/
def FP_STATUS_SHIFT : Nat := 28

/-- Slave bit of the raw clock word. -/
def FP_SLAVE_MASK : Nat := 2

/-- Payload length shift of the frontline `len` word. -/
def FP_LEN_SHIFT : Nat := 5

/-- LLID shift of the frontline `len` word. -/
def FP_LEN_LLID_SHIFT : Nat := 2

/-- LLID mask (2 bits). -/
def FP_LEN_LLID_MASK : Nat := 3

/-- Fixed capacity of the ignore list (`MAX_TYPES`). -/
def MAX_TYPES : Nat := 8

/-- Baseband packet type DV. -/
def TYPE_DV : Nat := 5

/-- LLID value tagging LMP payloads. -/
def LLID_LMP : Nat := 3

/-- `HCI_ACLDATA_PKT` (standard HCI packet-type byte). -/
def HCI_ACLDATA_PKT : Nat := 0x02

/-- `HCI_EVENT_PKT` (standard HCI packet-type byte). -/
def HCI_EVENT_PKT : Nat := 0x04

/-- `EVT_VENDOR` (standard HCI vendor event code). -/
def EVT_VENDOR : Nat := 0xFF

/-- `sizeof(hci_event_hdr)`: one event byte plus one parameter-length
byte. -/
def evtHdrSize : Nat := 2

/-- `sizeof(hci_acl_hdr)`: 16-bit handle plus 16-bit data length. -/
def aclHdrSize : Nat := 4

/-- Modelled from the spec: the payload-descriptor bits of the vendor
debug channel (missing header); the spec (§4.2, S1) fixes their union
`FRAG_FIRST ||| FRAG_LAST ||| CHAN_DEBUG` to `0x07`. -/
def FRAG_FIRST : Nat := 0x04

/-- Debug-channel fragment-last bit. -/
def FRAG_LAST : Nat := 0x02

/-- Debug-channel number. -/
def CHAN_DEBUG : Nat := 0x01

/-- Modelled from the spec: `CMD_TIMER` opcode of the debug packet;
the spec's S1 scenario fixes the encoded byte to `0x00`. -/
def CMD_TIMER : Nat := 0x00

/-- Modelled from the spec: size of the `dp_data` payload area of the
fixed-size `struct dbg_packet` (missing header; the spec only requires
the total encoding to stay below the HCI parameter limit). -/
def dpDataLen : Nat := 16

/-- `bluetooth.h`'s `acl_handle_pack(h, f) = (h & 0x0fff) | (f << 12)`. -/
def acl_handle_pack (h f : Nat) : Nat := (h &&& 0x0fff) ||| (f <<< 12)

/-- Little-endian 16-bit read at offset `i` (out-of-range bytes read 0). -/
def le16 (l : List Nat) (i : Nat) : Nat := l.getD i 0 + 256 * l.getD (i + 1) 0

/-- Little-endian 32-bit read at offset `i`. -/
def le32 (l : List Nat) (i : Nat) : Nat :=
  l.getD i 0 + 256 * l.getD (i + 1) 0 + 65536 * l.getD (i + 2) 0 +
    16777216 * l.getD (i + 3) 0

/-- The session state (`PyState` in the C source): ignore filters, dump
flag, the per-fragment decoded fields and the pairing observer state. -/
structure Session where
  s_ignore : List Nat
  s_ignore_zero : Bool
  s_dump : Bool
  s_llid : Nat
  s_master : Bool
  s_type : Nat
  s_pin : Nat
  s_pin_master : Bool
  s_pin_data : Fin 7 → List Nat
deriving DecidableEq

/-- `struct dbg_packet`: a command opcode plus a fixed payload area. -/
structure DbgPacket where
  dp_type : Nat
  dp_data : List Nat
deriving DecidableEq, Repr

/-- The command-parameter bytes built by `send_debug`: the
fragmentation/channel descriptor byte followed by the debug packet. -/
def send_debug_cparam (dp : DbgPacket) : List Nat :=
  (FRAG_FIRST ||| FRAG_LAST ||| CHAN_DEBUG) :: dp.dp_type :: dp.dp_data

/-- The debug packet encoded by `basesniff_get_timer`: `CMD_TIMER`
with a zeroed payload (`memset(&pkt, 0, sizeof(pkt))`). -/
def timerPacket : DbgPacket := ⟨CMD_TIMER, List.replicate dpDataLen 0⟩

/-- `basesniff_get_timer`'s use of the reply:
`*((unsigned int *)&rp[2])`, a 4-byte little-endian read at offset 2. -/
def timer_of_reply (rp : List Nat) : Nat := le32 rp 2

/-- `struct hcidump_hdr`: declared length, direction and timestamps. -/
structure DumpHdr where
  len : Nat
  dh_in : Nat
  ts_sec : Nat
  ts_usec : Nat
deriving DecidableEq, Repr

/-- `struct hci_event_hdr`. -/
structure EvtHdr where
  evt : Nat
  plen : Nat
deriving DecidableEq, Repr

/-- One record written by `dump_lmp`: hcidump header, packet-type byte,
event header and the 20 CSR-ized LMP bytes. -/
structure DumpRec where
  dh : DumpHdr
  ptype : Nat
  evt : EvtHdr
  csr : List Nat
deriving DecidableEq, Repr

/-- One record written by `process_l2cap`: hcidump header, packet-type
byte, ACL header fields and the raw payload. -/
structure AclRec where
  dh : DumpHdr
  ptype : Nat
  handle : Nat
  dlen : Nat
  payload : List Nat
deriving DecidableEq, Repr

/-- `dump_lmp`: builds the synthetic CSR LMP event record.  `none`
models the `assert(len <= 17)` failure.  The 20-byte body is the
channel id 20, the direction byte, the zero-padded 17-byte LMP body
and a zero connection handle. -/
def dumpLmp (master : Bool) (buf : List Nat) : Option DumpRec :=
  if buf.length ≤ 17 then
    some { dh := { len := 1 + evtHdrSize + 20, dh_in := 1, ts_sec := 0, ts_usec := 0 },
           ptype := HCI_EVENT_PKT,
           evt := { evt := EVT_VENDOR, plen := 20 },
           csr := 20 :: (if master then 0x10 else 0x0F) ::
             (buf ++ List.replicate (17 - buf.length) 0) ++ [0] }
  else none

/-- The ACL record written by `process_l2cap` when dumping is on. -/
def aclRecord (llid : Nat) (buf : List Nat) : AclRec :=
  { dh := { len := 1 + aclHdrSize + buf.length, dh_in := 1, ts_sec := 0, ts_usec := 0 },
    ptype := HCI_ACLDATA_PKT,
    handle := acl_handle_pack 0 llid,
    dlen := buf.length,
    payload := buf }

/-- The rendered `btpincrack Go` line: the initiator flag deciding the
`<A> <B>` order, and the seven hex-dumped slots (16 bytes each for
slots 0..4, 4 bytes each for slots 5..6). -/
structure PinOut where
  pm : Bool
  hs : List (List Nat)
deriving DecidableEq, Repr

/-- Number of bytes of slot `i` printed by the emission loop
(`len = i >= 5 ? 4 : 16`). -/
def slotLen (i : Fin 7) : Nat := if 5 ≤ i.val then 4 else 16

/-- `memcpy(slot, buf, len)` into a pre-existing slot: the first
`buf.length` bytes are overwritten, the tail survives. -/
def writeSlot (old b : List Nat) : List Nat := b ++ old.drop b.length

/-- Render the transcript of a pairing state, as the emission loop of
`do_pin` prints it. -/
def renderD (pm : Bool) (d : Fin 7 → List Nat) : PinOut :=
  ⟨pm, List.ofFn fun i => (d i).take (slotLen i)⟩

/-- The `switch (op)` body of `do_pin`: `none` models the early
`return`s (unmatched opcode or missing precondition); `some` is the
state after the slot write and mask update, before the `0xFF` check. -/
def pinUpdate (s : Session) (op : Nat) (buf : List Nat) : Option Session :=
  if op = LMP_IN_RAND then
    some { s with s_pin := 1 ||| GOT_IN_RAND,
                  s_pin_master := s.s_master,
                  s_pin_data := Function.update s.s_pin_data 0
                    (writeSlot (s.s_pin_data 0) buf) }
  else if op = LMP_COMB_KEY then
    if s.s_pin &&& GOT_IN_RAND = 0 then none
    else if s.s_master = s.s_pin_master then
      some { s with s_pin := s.s_pin ||| GOT_COMB1,
                    s_pin_data := Function.update s.s_pin_data 1
                      (writeSlot (s.s_pin_data 1) buf) }
    else
      some { s with s_pin := s.s_pin ||| GOT_COMB2,
                    s_pin_data := Function.update s.s_pin_data 2
                      (writeSlot (s.s_pin_data 2) buf) }
  else if op = LMP_AU_RAND then
    if s.s_pin &&& GOT_COMB1 = 0 ∨ s.s_pin &&& GOT_COMB2 = 0 then none
    else if s.s_master = s.s_pin_master then
      some { s with s_pin := s.s_pin ||| GOT_AU_RAND1,
                    s_pin_data := Function.update s.s_pin_data 3
                      (writeSlot (s.s_pin_data 3) buf) }
    else
      some { s with s_pin := s.s_pin ||| GOT_AU_RAND2,
                    s_pin_data := Function.update s.s_pin_data 4
                      (writeSlot (s.s_pin_data 4) buf) }
  else if op = LMP_SRES then
    if s.s_master ≠ s.s_pin_master then
      if s.s_pin &&& GOT_AU_RAND1 = 0 then none
      else
        some { s with s_pin := s.s_pin ||| GOT_SRES1,
                      s_pin_data := Function.update s.s_pin_data 6
                        (writeSlot (s.s_pin_data 6) buf) }
    else
      if s.s_pin &&& GOT_AU_RAND2 = 0 then none
      else
        some { s with s_pin := s.s_pin ||| GOT_SRES2,
                      s_pin_data := Function.update s.s_pin_data 5
                        (writeSlot (s.s_pin_data 5) buf) }
  else none

/-- `do_pin`: run the switch; on fall-through, emit the transcript and
re-arm (`s_pin = 1`) exactly when the mask reached `0xFF`. -/
def doPin (s : Session) (op : Nat) (buf : List Nat) : Session × Option PinOut :=
  match pinUpdate s op buf with
  | none => (s, none)
  | some s1 =>
    if s1.s_pin = 0xFF then
      ({ s1 with s_pin := 1 }, some (renderD s1.s_pin_master s1.s_pin_data))
    else (s1, none)

/-- One observed LMP authentication step: the sender's role flag (as
`process_frontline` sets `s_master`), the opcode and the body. -/
abbrev PinInput : Type := Bool × Nat × List Nat

/-- Feed a sequence of LMP opcodes to the pairing observer, collecting
every emitted transcript. -/
def runPin (s : Session) : List PinInput → Session × List PinOut
  | [] => (s, [])
  | (ro, op, b) :: rest =>
    let r := doPin { s with s_master := ro } op b
    let r2 := runPin r.1 rest
    (r2.1, r.2.toList ++ r2.2)

/-- The observable side effects of the decode path: console log lines,
payload dispatches, dump records and pairing emissions. -/
inductive Event
  | flLog (hlen chan clk status hdr0 ftype faddr llid plen : Nat) (master : Bool)
  | dispatchEv (payload : List Nat)
  | dvLog (b : List Nat)
  | lmpLog (tid op1 : Nat) (op2 : Option Nat) (body : List Nat)
  | l2capLog (b : List Nat)
  | aclDump (rec : AclRec)
  | lmpDump (rec : DumpRec)
  | pinEmit (o : PinOut)
  | unknownType (t : Nat)
deriving DecidableEq, Repr

/-- `process_lmp`: optionally dump the raw body first, split tid/op1,
consume op2 for extended opcodes (`assert(len >= 0)` failures are
`none`), log, and feed the pairing observer when it is armed. -/
def processLmp (s : Session) (buf : List Nat) : Option (Session × List Event) :=
  match (if s.s_dump then (dumpLmp s.s_master buf).map (fun r => [Event.lmpDump r])
         else some []) with
  | none => none
  | some devs =>
    match buf with
    | [] => none
    | b0 :: rest =>
      let tid := b0 &&& LMP_TID_MASK
      let op1 := b0 >>> LMP_OP1_SHIFT
      if 124 ≤ op1 ∧ op1 ≤ 127 then
        match rest with
        | [] => none
        | b1 :: rest2 =>
          let evs := devs ++ [Event.lmpLog tid op1 (some b1) rest2]
          if s.s_pin ≠ 0 then
            let r := doPin s op1 rest2
            some (r.1, evs ++ (r.2.map Event.pinEmit).toList)
          else some (s, evs)
      else
        let evs := devs ++ [Event.lmpLog tid op1 none rest]
        if s.s_pin ≠ 0 then
          let r := doPin s op1 rest
          some (r.1, evs ++ (r.2.map Event.pinEmit).toList)
        else some (s, evs)

/-- `process_l2cap`: hexdump and, when dumping is on, write one ACL
record packing `(handle = 0, flags = s_llid)`. -/
def processL2cap (s : Session) (buf : List Nat) : Session × List Event :=
  (s, Event.l2capLog buf ::
        (if s.s_dump then [Event.aclDump (aclRecord s.s_llid buf)] else []))

/-- `process_payload`: DV frames are only hexdumped; otherwise the LLID
routes to the LMP or L2CAP decoder. -/
def processPayload (s : Session) (buf : List Nat) : Option (Session × List Event) :=
  if s.s_type = TYPE_DV then some (s, [Event.dvLog buf])
  else if s.s_llid = LLID_LMP then processLmp s buf
  else some (processL2cap s buf)

/-- `process_frontline`, fuelled (the C recursion consumes at least one
header per call, so `buf.length` calls always suffice; the wrapper
`processFrontline` supplies the fuel).  `none` models `abort()` on an
unknown header length and the `assert(len >= 0)` / `assert(len >= plen)`
failures; the returned `Nat` counts the recursive invocations. -/
def goFL : Nat → Session → List Nat → Option (Session × List Event × Nat)
  | 0, _, _ => none
  | fuel + 1, s, buf =>
    let hlen := buf.getD 0 0
    if hlen = HLEN_BC2 ∨ hlen = HLEN_BC4 then
      let clk := le32 buf 1
      let hdr0 := buf.getD 5 0
      let flen := le16 buf 6
      let ftype := (hdr0 >>> FP_TYPE_SHIFT) &&& FP_TYPE_MASK
      let plen := flen >>> FP_LEN_SHIFT
      let faddr := hdr0 &&& FP_ADDR_MASK
      if ftype ∈ s.s_ignore then some (s, [], 1)
      else if s.s_ignore_zero = true ∧ plen = 0 then some (s, [], 1)
      else
        let llid := (flen >>> FP_LEN_LLID_SHIFT) &&& FP_LEN_LLID_MASK
        let mast := decide (clk &&& FP_SLAVE_MASK = 0)
        let s1 : Session := { s with s_llid := llid, s_master := mast, s_type := ftype }
        let lg := Event.flLog hlen (buf.getD 12 0) (clk &&& FP_CLOCK_MASK)
          (clk >>> FP_STATUS_SHIFT) hdr0 ftype faddr llid plen mast
        if buf.length < hlen then none
        else if buf.length - hlen < plen then none
        else
          let payload := (buf.drop hlen).take plen
          match (if plen = 0 then some (s1, []) else
                 (processPayload s1 payload).map
                   (fun r => (r.1, Event.dispatchEv payload :: r.2))) with
          | none => none
          | some (s2, pevs) =>
            if buf.length - hlen - plen = 0 then some (s2, lg :: pevs, 1)
            else
              match goFL fuel s2 (buf.drop (hlen + plen)) with
              | none => none
              | some (s3, revs, n) => some (s3, lg :: (pevs ++ revs), n + 1)
    else none

/-- `process_frontline` on a whole buffer. -/
def processFrontline (s : Session) (buf : List Nat) : Option (Session × List Event × Nat) :=
  goFL (buf.length + 1) s buf

/-- `process`: the top-level receive path.  A non-ACL first byte is
logged and dropped (`some`, session unchanged); a wrong ACL `dlen`
(`assert(acl->dlen == len - sizeof(*acl) - 1)`) is fatal (`none`), and
the frontline decoder handles the ACL payload. -/
def process (s : Session) (buf : List Nat) : Option (Session × List Event) :=
  if buf.getD 0 0 ≠ HCI_ACLDATA_PKT then
    some (s, [Event.unknownType (buf.getD 0 0)])
  else if (le16 buf 3 : Int) = (buf.length : Int) - (aclHdrSize : Int) - 1 then
    (processFrontline s (buf.drop (1 + aclHdrSize))).map (fun r => (r.1, r.2.1))
  else none

/-- Fragment projections of the event stream: header length and payload
length of every logged frontline fragment. -/
def flFragsHP (evs : List Event) : List (Nat × Nat) :=
  evs.filterMap fun e =>
    match e with
    | .flLog hlen _ _ _ _ _ _ _ plen _ => some (hlen, plen)
    | _ => none

/-- Total bytes covered by a list of fragments. -/
def sumHP (l : List (Nat × Nat)) : Nat := (l.map fun p => p.1 + p.2).sum

/-- Number of header summary log lines in an event stream. -/
def countFl (evs : List Event) : Nat := (flFragsHP evs).length

/-- Number of payload dispatches in an event stream. -/
def countDispatch (evs : List Event) : Nat :=
  (evs.filterMap fun e =>
    match e with
    | .dispatchEv p => some p
    | _ => none).length

/-- A session whose filters reject nothing: the ignore list holds only
the out-of-range sentinel 255 and the zero-length filter is off. -/
def baseSession : Session :=
  { s_ignore := List.replicate MAX_TYPES 255, s_ignore_zero := false, s_dump := false,
    s_llid := 0, s_master := true, s_type := 0, s_pin := 0, s_pin_master := true,
    s_pin_data := fun _ => List.replicate 16 0 }

/-- First demo frontline fragment: `hlen = HLEN_BC4`, `type = 0`,
`plen = 4`, followed by its 4 payload bytes. -/
def c2frag1 : List Nat := [15, 0, 0, 0, 0, 0, 128, 0, 0, 0, 0, 0, 7, 0, 0] ++ [1, 2, 3, 4]

/-- Second demo fragment: `hlen = HLEN_BC4`, `type = 0`, `plen = 0`. -/
def c2frag2 : List Nat := [15, 0, 0, 0, 0, 0, 0, 0, 0, 0, 0, 0, 7, 0, 0]

/-- The concatenated two-fragment demo buffer. -/
def c2buf : List Nat := c2frag1 ++ c2frag2

/-- The armed, fresh pairing session. -/
def demoS : Session := { baseSession with s_pin := 1 }

/-- The canonical seven-step pairing exchange: the master initiates
(IN_RAND), both sides send COMB_KEY and AU_RAND, the slave then the
master send SRES. -/
def demo7 : List PinInput :=
  [(true, LMP_IN_RAND, List.replicate 16 0x11),
   (true, LMP_COMB_KEY, List.replicate 16 0x22),
   (false, LMP_COMB_KEY, List.replicate 16 0x33),
   (true, LMP_AU_RAND, List.replicate 16 0x44),
   (false, LMP_AU_RAND, List.replicate 16 0x55),
   (false, LMP_SRES, List.replicate 4 0x66),
   (true, LMP_SRES, List.replicate 4 0x77)]

/-- The transcript emitted by `demo7`. -/
def demoOut : PinOut :=
  ⟨true,
   [List.replicate 16 0x11, List.replicate 16 0x22, List.replicate 16 0x33,
    List.replicate 16 0x44, List.replicate 16 0x55,
    List.replicate 4 0x77, List.replicate 4 0x66]⟩

/-- C7: `get_timer` encodes the descriptor byte
`FRAG_FIRST ||| FRAG_LAST ||| CHAN_DEBUG = 0x07` followed by the
zero-payload `CMD_TIMER` packet, and reads the reply as a 4-byte
little-endian integer at offset 2, so the reply
`00 00 78 56 34 12` yields `0x12345678`. -/
theorem get_timer_encode_decode :
    send_debug_cparam timerPacket = 0x07 :: CMD_TIMER :: List.replicate dpDataLen 0 ∧
    (send_debug_cparam timerPacket).getD 0 0 = (FRAG_FIRST ||| FRAG_LAST ||| CHAN_DEBUG) ∧
    FRAG_FIRST ||| FRAG_LAST ||| CHAN_DEBUG = 0x07 ∧
    timer_of_reply [0x00, 0x00, 0x78, 0x56, 0x34, 0x12] = 0x12345678 := by
  decide

/-- C2: on the two-fragment buffer (`hlen = HLEN_BC4`, `type = 0`,
`plen = 4` then `plen = 0`) the decoder logs one header summary line
per fragment (two in all, with the filters off), and with the
ignore-zero-length filter on exactly one payload dispatch occurs. -/
theorem frontline_two_fragment_decode :
    (processFrontline baseSession c2buf).map (fun r => countFl r.2.1) = some 2 ∧
    (processFrontline baseSession c2buf).map (fun r => countDispatch r.2.1) = some 1 ∧
    (processFrontline { baseSession with s_ignore_zero := true } c2buf).map
      (fun r => countDispatch r.2.1) = some 1 := by
  decide

/-- C3, counterexample: in the completed `demo7` transcript the
responder (role `false`, which did not send IN_RAND) sent the SRES
`66 66 66 66` and the initiator sent `77 77 77 77`; slot 5 holds the
initiator's bytes and slot 6 the responder's — the opposite of the
claim's slot naming. -/
theorem sres_slot_counterexample :
    (runPin demoS demo7).2 = [demoOut] ∧
    demo7.getD 5 (true, 0, []) = (false, LMP_SRES, List.replicate 4 0x66) ∧
    demo7.getD 6 (true, 0, []) = (true, LMP_SRES, List.replicate 4 0x77) ∧
    ((runPin demoS demo7).1.s_pin_data 5).take 4 = List.replicate 4 0x77 ∧
    ((runPin demoS demo7).1.s_pin_data 6).take 4 = List.replicate 4 0x66 ∧
    (List.replicate 4 0x77 : List Nat) ≠ List.replicate 4 0x66 := by
  decide

/-- The emission step of `do_pin` never touches the transcript slots:
the final slot contents are those left by the switch. -/
theorem doPin_data (s : Session) (op : Nat) (buf : List Nat) :
    (doPin s op buf).1.s_pin_data =
      (pinUpdate s op buf).elim s.s_pin_data Session.s_pin_data := by
  unfold doPin
  rcases pinUpdate s op buf with _ | s1
  · rfl
  · by_cases h : s1.s_pin = 0xFF <;> simp [h]

/-- C3, amended: slot 5 is written exactly by an SRES from the side
that sent IN_RAND (the initiator, `s_master = s_pin_master`, gated on
`GOT_AU_RAND2`), and slot 6 exactly by an SRES from the responder
(gated on `GOT_AU_RAND1`). -/
theorem sres_slot_assignment (s : Session) (op : Nat) (buf : List Nat) :
    (doPin s op buf).1.s_pin_data 5 =
      (if op = LMP_SRES ∧ s.s_master = s.s_pin_master ∧ s.s_pin &&& GOT_AU_RAND2 ≠ 0
       then writeSlot (s.s_pin_data 5) buf else s.s_pin_data 5) ∧
    (doPin s op buf).1.s_pin_data 6 =
      (if op = LMP_SRES ∧ s.s_master ≠ s.s_pin_master ∧ s.s_pin &&& GOT_AU_RAND1 ≠ 0
       then writeSlot (s.s_pin_data 6) buf else s.s_pin_data 6) := by
  constructor <;>
  · rw [doPin_data]
    unfold pinUpdate
    repeat' split
    all_goals
      simp_all [LMP_IN_RAND, LMP_COMB_KEY, LMP_AU_RAND, LMP_SRES, Function.update]

/-- C6: for a body of at most 17 bytes, `dump_lmp` produces exactly the
record `DumpHdr(len = 1 + sizeof(EvtHdr) + 20, in = 1, ts = 0,0)`,
the byte `HCI_EVENT_PKT`, `EvtHdr(EVT_VENDOR, 20)` and the 20 bytes
`[20, dir, body zero-padded to 17, 0]` with `dir = 0x10` for master and
`0x0F` otherwise; and `process_lmp` emits this record before any
decoding output whenever dumping is enabled. -/
theorem dump_lmp_record (body : List Nat) (hlen : body.length ≤ 17) :
    dumpLmp true body =
      some ⟨⟨1 + evtHdrSize + 20, 1, 0, 0⟩, HCI_EVENT_PKT, ⟨EVT_VENDOR, 20⟩,
        20 :: 0x10 :: (body ++ List.replicate (17 - body.length) 0) ++ [0]⟩ ∧
    dumpLmp false body =
      some ⟨⟨1 + evtHdrSize + 20, 1, 0, 0⟩, HCI_EVENT_PKT, ⟨EVT_VENDOR, 20⟩,
        20 :: 0x0F :: (body ++ List.replicate (17 - body.length) 0) ++ [0]⟩ ∧
    (∀ s s' evs, s.s_dump = true → processLmp s body = some (s', evs) →
      ∃ r rest, dumpLmp s.s_master body = some r ∧ evs = Event.lmpDump r :: rest) := by
  refine ⟨by simp [dumpLmp, hlen], by simp [dumpLmp, hlen], ?_⟩
  intro s s' evs hdmp hpl
  rcases hd : dumpLmp s.s_master body with _ | r
  · rw [processLmp] at hpl
    simp [hdmp, hd] at hpl
  · rw [processLmp] at hpl
    simp only [hdmp, if_true, hd, Option.map_some'] at hpl
    repeat' split at hpl
    all_goals
      first
        | exact Option.noConfusion hpl
        | (injection hpl with hpl1
           injection hpl1 with hA hB
           subst hB
           simp only [List.append_assoc, List.cons_append, List.singleton_append,
             List.nil_append]
           exact ⟨r, _, rfl, rfl⟩)

/-- C6 witness at a concrete 17-byte body. -/
theorem dump_lmp_record_witness :
    (List.replicate 17 0x41 : List Nat).length ≤ 17 ∧
    dumpLmp true (List.replicate 17 0x41) =
      some ⟨⟨1 + evtHdrSize + 20, 1, 0, 0⟩, HCI_EVENT_PKT, ⟨EVT_VENDOR, 20⟩,
        20 :: 0x10 :: (List.replicate 17 0x41 ++
          List.replicate (17 - (List.replicate 17 0x41 : List Nat).length) 0) ++ [0]⟩ :=
  ⟨by decide, (dump_lmp_record (List.replicate 17 0x41) (by decide)).1⟩

/-- C10: with dumping disabled, `process_lmp` succeeds exactly when the
body holds the opcode byte (length at least 1) and, for the extended
opcode range `op1 ∈ [124, 127]`, also the second opcode byte (length at
least 2); otherwise one of the `assert(len >= 0)` checks fires. -/
theorem process_lmp_total_iff (s : Session) (buf : List Nat) (hd : s.s_dump = false) :
    (processLmp s buf).isSome = true ↔
      (1 ≤ buf.length ∧
        (124 ≤ (buf.getD 0 0) >>> LMP_OP1_SHIFT ∧ (buf.getD 0 0) >>> LMP_OP1_SHIFT ≤ 127 →
          2 ≤ buf.length)) := by
  rcases buf with _ | ⟨b0, rest⟩
  · simp [processLmp, hd]
  · rcases rest with _ | ⟨b1, rest2⟩
    · by_cases hop : 124 ≤ b0 >>> LMP_OP1_SHIFT ∧ b0 >>> LMP_OP1_SHIFT ≤ 127
      · simp [processLmp, hd, hop]
      · simp only [processLmp, hd, if_false, Bool.false_eq_true]
        simp only [if_neg hop]
        by_cases hpin : s.s_pin ≠ 0 <;> simp [hpin, hop]
    · simp only [processLmp, hd, if_false, Bool.false_eq_true]
      constructor
      · intro _
        refine ⟨by simp, fun _ => by simp⟩
      · intro _
        split <;> (by_cases hpin : s.s_pin ≠ 0 <;> simp [hpin])

/-- C10 witness: a one-byte non-extended body succeeds. -/
theorem process_lmp_total_iff_witness :
    baseSession.s_dump = false ∧
    ((processLmp baseSession [51]).isSome = true ↔
      (1 ≤ ([51] : List Nat).length ∧
        (124 ≤ (([51] : List Nat).getD 0 0) >>> LMP_OP1_SHIFT ∧
            (([51] : List Nat).getD 0 0) >>> LMP_OP1_SHIFT ≤ 127 →
          2 ≤ ([51] : List Nat).length))) :=
  ⟨rfl, process_lmp_total_iff baseSession [51] rfl⟩

/-- Every accepted non-IN_RAND opcode only ORs a single `GOT_*` flag
into the pairing mask. -/
theorem pinUpdate_or_shape (s : Session) (op : Nat) (buf : List Nat) (s1 : Session)
    (hne : op ≠ LMP_IN_RAND) (h : pinUpdate s op buf = some s1) :
    s1.s_pin = s.s_pin ||| GOT_COMB1 ∨ s1.s_pin = s.s_pin ||| GOT_COMB2 ∨
    s1.s_pin = s.s_pin ||| GOT_AU_RAND1 ∨ s1.s_pin = s.s_pin ||| GOT_AU_RAND2 ∨
    s1.s_pin = s.s_pin ||| GOT_SRES1 ∨ s1.s_pin = s.s_pin ||| GOT_SRES2 := by
  unfold pinUpdate at h
  rw [if_neg hne] at h
  repeat' split at h
  all_goals first
    | exact Option.noConfusion h
    | (injection h with h1; subst h1; simp)

/-- C9: the armed bit survives every `do_pin` transition (IN_RAND sets
the mask to `1 ||| GOT_IN_RAND`, the other accepted opcodes only OR in
flag bits, emission resets to the armed bit 1), and `process_lmp`
leaves the session untouched when the observer is disarmed
(`s_pin = 0`), matching the `if (s->s_pin)` gate. -/
theorem pin_armed_invariant :
    (∀ s op buf, s.s_pin.testBit 0 = true → ((doPin s op buf).1.s_pin).testBit 0 = true) ∧
    (∀ s buf s1, pinUpdate s LMP_IN_RAND buf = some s1 → s1.s_pin = 1 ||| GOT_IN_RAND) ∧
    (∀ s op buf s1, op ≠ LMP_IN_RAND → pinUpdate s op buf = some s1 →
      s1.s_pin = s.s_pin ||| GOT_COMB1 ∨ s1.s_pin = s.s_pin ||| GOT_COMB2 ∨
      s1.s_pin = s.s_pin ||| GOT_AU_RAND1 ∨ s1.s_pin = s.s_pin ||| GOT_AU_RAND2 ∨
      s1.s_pin = s.s_pin ||| GOT_SRES1 ∨ s1.s_pin = s.s_pin ||| GOT_SRES2) ∧
    (∀ s op buf s' o, doPin s op buf = (s', some o) → s'.s_pin = 1) ∧
    (∀ s buf s' evs, s.s_pin = 0 → processLmp s buf = some (s', evs) → s' = s) := by
  refine ⟨?_, ?_, pinUpdate_or_shape, ?_, ?_⟩
  · intro s op buf h
    unfold doPin
    rcases hpu : pinUpdate s op buf with _ | s1
    · exact h
    · by_cases hff : s1.s_pin = 0xFF
      · simp [hff]
      · simp only [hff, if_false, Bool.false_eq_true]
        by_cases hir : op = LMP_IN_RAND
        · subst hir
          unfold pinUpdate at hpu
          rw [if_pos rfl] at hpu
          injection hpu with h1
          subst h1
          show (1 ||| GOT_IN_RAND).testBit 0 = true
          decide
        · have hm : s.s_pin % 2 = 1 := by simpa using h
          rcases pinUpdate_or_shape s op buf s1 hir hpu with h2 | h2 | h2 | h2 | h2 | h2 <;>
            simp [h2, Nat.testBit_or, hm]
  · intro s buf s1 h
    unfold pinUpdate at h
    rw [if_pos rfl] at h
    injection h with h1
    subst h1
    rfl
  · intro s op buf s' o h
    unfold doPin at h
    repeat' split at h
    all_goals injection h with hA hB
    all_goals first
      | exact Option.noConfusion hB
      | (rw [← hA])
  · intro s buf s' evs hp0 h
    simp only [processLmp] at h
    repeat' split at h
    all_goals first
      | exact Option.noConfusion h
      | exact absurd hp0 (by assumption)
      | (injection h with h1; injection h1 with hA hB; exact hA.symm)

/-- C9 witness: the armed-bit clause at the armed demo session and a
COMB_KEY input. -/
theorem pin_armed_invariant_witness :
    demoS.s_pin.testBit 0 = true ∧
    ((doPin demoS LMP_COMB_KEY (List.replicate 16 1)).1.s_pin).testBit 0 = true :=
  ⟨by decide, pin_armed_invariant.1 demoS LMP_COMB_KEY (List.replicate 16 1) (by decide)⟩

/-- C8: a non-ACL first byte is logged as unknown and dropped with the
session unchanged (the receive loop continues), while framing anomalies
are fatal: an ACL `dlen` different from `total - sizeof(ACLHdr) - 1`,
or a frontline header length other than `HLEN_BC2`/`HLEN_BC4`, yield
`none` (the C `assert` / `abort`). -/
theorem process_error_policy :
    (∀ s buf, buf.getD 0 0 ≠ HCI_ACLDATA_PKT →
      process s buf = some (s, [Event.unknownType (buf.getD 0 0)])) ∧
    (∀ s buf, buf.getD 0 0 = HCI_ACLDATA_PKT →
      (le16 buf 3 : Int) ≠ (buf.length : Int) - (aclHdrSize : Int) - 1 →
      process s buf = none) ∧
    (∀ s buf, buf.getD 0 0 = HCI_ACLDATA_PKT →
      (le16 buf 3 : Int) = (buf.length : Int) - (aclHdrSize : Int) - 1 →
      ¬((buf.drop (1 + aclHdrSize)).getD 0 0 = HLEN_BC2 ∨
        (buf.drop (1 + aclHdrSize)).getD 0 0 = HLEN_BC4) →
      process s buf = none) := by
  refine ⟨?_, ?_, ?_⟩
  · intro s buf h
    unfold process
    rw [if_pos h]
  · intro s buf h1 h2
    unfold process
    rw [if_neg (not_not_intro h1), if_neg h2]
  · intro s buf h1 h2 h3
    unfold process processFrontline
    rw [if_neg (not_not_intro h1), if_pos h2, goFL, if_neg h3]
    rfl

/-- C8 witness: a dropped unknown packet, a wrong-length ACL frame and
an unknown frontline header length. -/
theorem process_error_policy_witness :
    (([5, 1, 2] : List Nat).getD 0 0 ≠ HCI_ACLDATA_PKT ∧
      process baseSession [5, 1, 2] = some (baseSession, [Event.unknownType 5])) ∧
    (([2, 0, 0, 9, 0, 1, 2] : List Nat).getD 0 0 = HCI_ACLDATA_PKT ∧
      process baseSession [2, 0, 0, 9, 0, 1, 2] = none) ∧
    (([2, 0, 0, 3, 0, 9, 9, 9] : List Nat).getD 0 0 = HCI_ACLDATA_PKT ∧
      process baseSession [2, 0, 0, 3, 0, 9, 9, 9] = none) :=
  ⟨⟨by decide, process_error_policy.1 baseSession [5, 1, 2] (by decide)⟩,
   ⟨by decide, process_error_policy.2.1 baseSession [2, 0, 0, 9, 0, 1, 2] rfl (by decide)⟩,
   ⟨by decide, process_error_policy.2.2 baseSession [2, 0, 0, 3, 0, 9, 9, 9] rfl (by decide)
      (by decide)⟩⟩

/-- `pinUpdate` only touches the pairing fields. -/
theorem pinUpdate_pres (s : Session) (op : Nat) (buf : List Nat) (s1 : Session)
    (h : pinUpdate s op buf = some s1) :
    s1.s_ignore = s.s_ignore ∧ s1.s_ignore_zero = s.s_ignore_zero := by
  unfold pinUpdate at h
  repeat' split at h
  all_goals first
    | exact Option.noConfusion h
    | (injection h with h1; subst h1; exact ⟨rfl, rfl⟩)

/-- `do_pin` only touches the pairing fields. -/
theorem doPin_pres (s : Session) (op : Nat) (buf : List Nat) :
    (doPin s op buf).1.s_ignore = s.s_ignore ∧
      (doPin s op buf).1.s_ignore_zero = s.s_ignore_zero := by
  unfold doPin
  rcases hpu : pinUpdate s op buf with _ | s1
  · exact ⟨rfl, rfl⟩
  · have hp := pinUpdate_pres s op buf s1 hpu
    by_cases hff : s1.s_pin = 0xFF <;> simp [hff, hp.1, hp.2]

/-- The payload decoders keep the session's filter settings and log no
frontline header line. -/
theorem processPayload_pres (s : Session) (buf : List Nat) (s' : Session)
    (evs : List Event) (h : processPayload s buf = some (s', evs)) :
    s'.s_ignore = s.s_ignore ∧ s'.s_ignore_zero = s.s_ignore_zero ∧
      flFragsHP evs = [] := by
  unfold processPayload at h
  split at h
  · injection h with h1
    injection h1 with hA hB
    subst hA; subst hB
    exact ⟨rfl, rfl, rfl⟩
  · split at h
    · -- LMP path
      simp only [processLmp] at h
      split at h
      · exact Option.noConfusion h
      · rename_i devs heq
        have hdevs : flFragsHP devs = [] := by
          split at heq
          · rcases hdl : dumpLmp s.s_master buf with _ | r <;> rw [hdl] at heq
            · exact Option.noConfusion heq
            · injection heq with hq
              subst hq
              rfl
          · injection heq with hq
            subst hq
            rfl
        simp only [flFragsHP] at hdevs
        repeat' split at h
        all_goals first
          | exact Option.noConfusion h
          | (injection h with h1; injection h1 with hA hB; subst hA; subst hB;
             refine ⟨(doPin_pres _ _ _).1, (doPin_pres _ _ _).2, ?_⟩ <;>
               rcases (doPin s _ _).2 with _ | o <;>
                 simp [flFragsHP, hdevs])
          | (injection h with h1; injection h1 with hA hB; subst hA; subst hB;
             exact ⟨rfl, rfl, by simp [flFragsHP, hdevs]⟩)
    · -- L2CAP path
      injection h with h1
      injection h1 with hA hB
      subst hA; subst hB
      refine ⟨rfl, rfl, ?_⟩
      by_cases hdp : s.s_dump = true <;> simp [processL2cap, hdp, flFragsHP]

/-- The fuelled frontline decoder, with sufficient fuel and filters that
reject nothing, decomposes the whole buffer: the logged fragments'
header and payload lengths sum to the input length, the recursion count
equals the fragment count, and every header length is legal. -/
theorem goFL_frags (fuel : Nat) : ∀ (s : Session) (buf : List Nat) s' evs n,
    buf.length < fuel →
    (∀ t ∈ s.s_ignore, FP_TYPE_MASK < t) → s.s_ignore_zero = false →
    goFL fuel s buf = some (s', evs, n) →
    sumHP (flFragsHP evs) = buf.length ∧ n = (flFragsHP evs).length ∧
      (∀ p ∈ flFragsHP evs, p.1 = HLEN_BC2 ∨ p.1 = HLEN_BC4) := by
  induction fuel with
  | zero =>
    intro s buf s' evs n hlt
    omega
  | succ fuel ih =>
    intro s buf s' evs n hlt hig hz h
    simp only [goFL] at h
    by_cases hok : buf.getD 0 0 = HLEN_BC2 ∨ buf.getD 0 0 = HLEN_BC4
    case neg =>
      rw [if_neg hok] at h
      exact Option.noConfusion h
    case pos =>
    rw [if_pos hok] at h
    by_cases hmem : (buf.getD 5 0) >>> FP_TYPE_SHIFT &&& FP_TYPE_MASK ∈ s.s_ignore
    case pos => exact absurd (hig _ hmem) (Nat.not_lt.mpr Nat.and_le_right)
    case neg =>
    rw [if_neg hmem] at h
    by_cases hzz : s.s_ignore_zero = true ∧ le16 buf 6 >>> FP_LEN_SHIFT = 0
    case pos => exact absurd hzz (by simp [hz])
    case neg =>
    rw [if_neg hzz] at h
    by_cases hb1 : buf.length < buf.getD 0 0
    case pos =>
      rw [if_pos hb1] at h
      exact Option.noConfusion h
    case neg =>
    rw [if_neg hb1] at h
    by_cases hb2 : buf.length - buf.getD 0 0 < le16 buf 6 >>> FP_LEN_SHIFT
    case pos =>
      rw [if_pos hb2] at h
      exact Option.noConfusion h
    case neg =>
    rw [if_neg hb2] at h
    split at h
    case h_1 => exact Option.noConfusion h
    case h_2 s2 pevs heq =>
    have hpres : s2.s_ignore = s.s_ignore ∧ s2.s_ignore_zero = s.s_ignore_zero ∧
        flFragsHP pevs = [] := by
      split at heq
      · injection heq with hq
        injection hq with hqA hqB
        subst hqA; subst hqB
        exact ⟨rfl, rfl, rfl⟩
      · rcases hpp : processPayload _ _ with _ | r
        · rw [hpp] at heq
          exact Option.noConfusion heq
        · rw [hpp] at heq
          injection heq with hq
          rcases r with ⟨r1, r2⟩
          injection hq with hqA hqB
          subst hqA; subst hqB
          have hres := processPayload_pres _ _ _ _ hpp
          exact ⟨hres.1, hres.2.1, by
            simp only [flFragsHP, List.filterMap_cons] at hres ⊢
            exact hres.2.2⟩
    have hlen14 : 14 ≤ buf.getD 0 0 ∧ buf.getD 0 0 ≤ 15 := by
      rcases hok with h14 | h15
      · rw [h14]
        exact ⟨by decide, by decide⟩
      · rw [h15]
        exact ⟨by decide, by decide⟩
    by_cases hrem : buf.length - buf.getD 0 0 - le16 buf 6 >>> FP_LEN_SHIFT = 0
    case pos =>
      rw [if_pos hrem] at h
      injection h with h1
      injection h1 with hA h2
      injection h2 with hB hC
      subst hA; subst hB; subst hC
      refine ⟨?_, ?_, ?_⟩
      · simp only [flFragsHP, List.filterMap_cons] at hpres ⊢
        simp only [hpres.2.2, sumHP, List.map_cons, List.map_nil, List.sum_cons,
          List.sum_nil]
        omega
      · simp only [flFragsHP, List.filterMap_cons] at hpres ⊢
        simp [hpres.2.2]
      · intro p hp
        simp only [flFragsHP, List.filterMap_cons] at hpres hp
        rw [hpres.2.2] at hp
        simp at hp
        subst hp
        simpa using hok
    case neg =>
    rw [if_neg hrem] at h
    split at h
    case h_1 => exact Option.noConfusion h
    case h_2 s3 revs n0 hrec =>
    injection h with h1
    injection h1 with hA h2
    injection h2 with hB hC
    subst hA; subst hB; subst hC
    have hlt2 : (buf.drop (buf.getD 0 0 + le16 buf 6 >>> FP_LEN_SHIFT)).length < fuel := by
      have h14 := hlen14.1
      rw [List.length_drop]
      revert hlt hb1 hb2 hrem h14
      generalize buf.getD 0 0 = H
      generalize le16 buf 6 >>> FP_LEN_SHIFT = P
      generalize buf.length = L
      intro hlt hb1 hb2 hrem h14
      omega
    have hrecres := ih s2 (buf.drop (buf.getD 0 0 + le16 buf 6 >>> FP_LEN_SHIFT)) s3 revs n0
      hlt2 (by rw [hpres.1]; exact hig) (by rw [hpres.2.1]; exact hz) hrec
    have hdlen : (buf.drop (buf.getD 0 0 + le16 buf 6 >>> FP_LEN_SHIFT)).length =
        buf.length - (buf.getD 0 0 + le16 buf 6 >>> FP_LEN_SHIFT) := by
      simp only [List.length_drop]
    refine ⟨?_, ?_, ?_⟩
    · simp only [flFragsHP, List.filterMap_cons, List.filterMap_append] at hrecres ⊢
      simp only [flFragsHP] at hpres
      simp only [hpres.2.2, sumHP, List.nil_append, List.map_cons, List.sum_cons,
        List.map_append, List.sum_append] at hrecres ⊢
      rw [hdlen] at hrecres
      omega
    · simp only [flFragsHP, List.filterMap_cons, List.filterMap_append] at hrecres ⊢
      simp only [flFragsHP] at hpres
      simp [hpres.2.2, hrecres.2.1]
    · intro p hp
      simp only [flFragsHP, List.filterMap_cons, List.filterMap_append] at hp
      simp only [flFragsHP] at hpres
      rw [hpres.2.2] at hp
      simp at hp
      rcases hp with hp | hp
      · subst hp
        simpa using hok
      · exact hrecres.2.2 p (by
          simp only [flFragsHP]
          simpa using hp)

/-- C4: for every successfully decoded frontline stream whose session
filters reject nothing, the recursive decomposition covers the whole
buffer (`Σ (hlen + plen) = input length`), the decoder is invoked
exactly once per logged fragment, and every fragment's header length is
`HLEN_BC2` or `HLEN_BC4`. -/
theorem frontline_decomposition (s : Session) (buf : List Nat) (s' : Session)
    (evs : List Event) (n : Nat)
    (hig : ∀ t ∈ s.s_ignore, FP_TYPE_MASK < t) (hz : s.s_ignore_zero = false)
    (h : processFrontline s buf = some (s', evs, n)) :
    sumHP (flFragsHP evs) = buf.length ∧ n = (flFragsHP evs).length ∧
      (∀ p ∈ flFragsHP evs, p.1 = HLEN_BC2 ∨ p.1 = HLEN_BC4) :=
  goFL_frags (buf.length + 1) s buf s' evs n (by omega) hig hz h

/-- The events decoded from the two-fragment demo buffer. -/
def c4evs : List Event :=
  [Event.flLog 15 7 0 0 0 0 0 0 4 true, Event.dispatchEv [1, 2, 3, 4],
   Event.l2capLog [1, 2, 3, 4], Event.flLog 15 7 0 0 0 0 0 0 0 true]

/-- The session left by decoding the demo buffer. -/
def c4s : Session := { baseSession with s_llid := 0, s_master := true, s_type := 0 }

/-- C4 witness at the concrete two-fragment demo buffer. -/
theorem frontline_decomposition_witness :
    sumHP (flFragsHP c4evs) = c2buf.length ∧ 2 = (flFragsHP c4evs).length ∧
      (∀ p ∈ flFragsHP c4evs, p.1 = HLEN_BC2 ∨ p.1 = HLEN_BC4) :=
  frontline_decomposition baseSession c2buf c4s c4evs 2 (by decide) rfl (by decide)

/-- Flip the role flag of every observed input. -/
def flipIn (i : PinInput) : PinInput := (!i.1, i.2)

/-- Flip the role bookkeeping of a session (current sender role and the
recorded IN_RAND originator). -/
def roleFlip (s : Session) : Session :=
  { s with s_master := !s.s_master, s_pin_master := !s.s_pin_master }

/-- The switch of `do_pin` commutes with flipping both role flags: the
branch taken depends only on whether sender and originator agree. -/
theorem pinUpdate_roleFlip (s : Session) (op : Nat) (buf : List Nat) :
    pinUpdate (roleFlip s) op buf = (pinUpdate s op buf).map roleFlip := by
  unfold pinUpdate roleFlip
  simp only [Bool.not_inj_iff, ne_eq]
  repeat' split
  all_goals simp_all

/-- `do_pin` commutes with flipping both role flags; the emitted line
keeps its slots and flips only the order flag. -/
theorem doPin_roleFlip (s : Session) (op : Nat) (buf : List Nat) :
    doPin (roleFlip s) op buf =
      (roleFlip (doPin s op buf).1,
       (doPin s op buf).2.map (fun o => ⟨!o.pm, o.hs⟩)) := by
  unfold doPin
  rw [pinUpdate_roleFlip]
  rcases pinUpdate s op buf with _ | s1
  · rfl
  · by_cases hff : s1.s_pin = 0xFF <;>
      simp [hff, roleFlip, renderD]

/-- C5, counterexample: flipping the role flag on every input of the
completed `demo7` exchange flips the printed order flag but leaves all
seven slots unchanged; since slots 1 and 2 hold different bytes, the
claimed swap of slot pairs does not happen. -/
theorem role_swap_counterexample :
    (runPin demoS demo7).2 = [demoOut] ∧
    (runPin demoS (demo7.map flipIn)).2 = [⟨false, demoOut.hs⟩] ∧
    demoOut.hs.getD 1 [] ≠ demoOut.hs.getD 2 [] := by
  decide

/-- C5, amended: swapping the master/slave role flag on every input
(and in the observer's role bookkeeping) swaps only the `<A> <B>`
order flag of every emitted line; the seven transcript slots are
unchanged, because the slots are indexed by initiator/responder, which
swaps along with the roles. -/
theorem role_swap_equivariance (s : Session) (seq : List PinInput) :
    runPin (roleFlip s) (seq.map flipIn) =
      (roleFlip (runPin s seq).1,
       (runPin s seq).2.map (fun o => ⟨!o.pm, o.hs⟩)) := by
  induction seq generalizing s with
  | nil => simp [runPin]
  | cons i rest ih =>
    rcases i with ⟨ro, op, b⟩
    simp only [List.map_cons, flipIn, runPin]
    have hset : ({ roleFlip s with s_master := !ro } : Session) =
        roleFlip { s with s_master := ro } := rfl
    rw [hset, doPin_roleFlip, ih]
    rcases (doPin { s with s_master := ro } op b).2 with _ | o <;> simp

/-- A per-step trace record of the pairing observer: the slot write (if
the opcode was accepted) and the emission (the `pm` flag of the printed
line, if the mask reached `0xFF`). -/
abbrev PinStep : Type := Option (Fin 7 × List Nat) × Option Bool

/-- The control part of the `do_pin` switch: from the mask, the
recorded originator and the sender's role, which opcodes are accepted,
the new mask/originator, and which slot is written. -/
def ctrlAccept (pin : Nat) (pm ro : Bool) (op : Nat) : Option (Nat × Bool × Fin 7) :=
  if op = LMP_IN_RAND then some (1 ||| GOT_IN_RAND, ro, 0)
  else if op = LMP_COMB_KEY then
    if pin &&& GOT_IN_RAND = 0 then none
    else if ro = pm then some (pin ||| GOT_COMB1, pm, 1)
    else some (pin ||| GOT_COMB2, pm, 2)
  else if op = LMP_AU_RAND then
    if pin &&& GOT_COMB1 = 0 ∨ pin &&& GOT_COMB2 = 0 then none
    else if ro = pm then some (pin ||| GOT_AU_RAND1, pm, 3)
    else some (pin ||| GOT_AU_RAND2, pm, 4)
  else if op = LMP_SRES then
    if ro ≠ pm then
      if pin &&& GOT_AU_RAND1 = 0 then none else some (pin ||| GOT_SRES1, pm, 6)
    else
      if pin &&& GOT_AU_RAND2 = 0 then none else some (pin ||| GOT_SRES2, pm, 5)
  else none

/-- One control step: new `(mask, pm)` control state plus the step's
trace record, including the `0xFF` emission check and re-arming. -/
def ctrlStep (c : Nat × Bool) (i : PinInput) : (Nat × Bool) × PinStep :=
  match ctrlAccept c.1 c.2 i.1 i.2.1 with
  | none => (c, (none, none))
  | some x =>
    if x.1 = 0xFF then ((1, x.2.1), (some (x.2.2, i.2.2), some x.2.1))
    else ((x.1, x.2.1), (some (x.2.2, i.2.2), none))

/-- The control run over an input sequence, collecting the step trace. -/
def ctrlRun (c : Nat × Bool) : List PinInput → (Nat × Bool) × List PinStep
  | [] => (c, [])
  | i :: rest =>
    let r := ctrlStep c i
    let r2 := ctrlRun r.1 rest
    (r2.1, r.2 :: r2.2)

/-- Apply one step's slot write to the transcript data. -/
def applyStepD (d : Fin 7 → List Nat) (st : PinStep) : Fin 7 → List Nat :=
  match st.1 with
  | none => d
  | some jb => Function.update d jb.1 (writeSlot (d jb.1) jb.2)

/-- Replay a step trace over transcript data: the final data and the
emitted lines (each rendered from the data right after its write). -/
def replayOut (d : Fin 7 → List Nat) : List PinStep → (Fin 7 → List Nat) × List PinOut
  | [] => (d, [])
  | st :: rest =>
    let d1 := applyStepD d st
    let r := replayOut d1 rest
    (r.1, (st.2.map (fun m => renderD m d1)).toList ++ r.2)

/-- The `do_pin` switch factored through its control part: acceptance
and the new mask/originator depend only on `(s_pin, s_pin_master,
s_master, op)`, and an accepted opcode writes exactly one slot. -/
theorem pinUpdate_factor (s : Session) (op : Nat) (buf : List Nat) :
    pinUpdate s op buf =
      (ctrlAccept s.s_pin s.s_pin_master s.s_master op).map
        (fun x =>
          { s with
              s_pin := x.1,
              s_pin_master := x.2.1,
              s_pin_data := Function.update s.s_pin_data x.2.2
                (writeSlot (s.s_pin_data x.2.2) buf) }) := by
  unfold pinUpdate ctrlAccept
  repeat' split
  all_goals simp_all

/-- `do_pin` factored through one control step. -/
theorem doPin_step (s : Session) (op : Nat) (buf : List Nat) :
    doPin s op buf =
      ({ s with
          s_pin := (ctrlStep (s.s_pin, s.s_pin_master) (s.s_master, op, buf)).1.1,
          s_pin_master := (ctrlStep (s.s_pin, s.s_pin_master) (s.s_master, op, buf)).1.2,
          s_pin_data := applyStepD s.s_pin_data
            (ctrlStep (s.s_pin, s.s_pin_master) (s.s_master, op, buf)).2 },
       ((ctrlStep (s.s_pin, s.s_pin_master) (s.s_master, op, buf)).2.2.map
          (fun m => renderD m (applyStepD s.s_pin_data
            (ctrlStep (s.s_pin, s.s_pin_master) (s.s_master, op, buf)).2)))) := by
  unfold doPin ctrlStep
  rw [pinUpdate_factor]
  rcases ctrlAccept s.s_pin s.s_pin_master s.s_master op with _ | x
  · simp [applyStepD]
  · by_cases hff : x.1 = 0xFF <;>
      simp [hff, applyStepD, renderD]

/-- `runPin` factored through the control run and the data replay. -/
theorem runPin_bridge (seq : List PinInput) : ∀ s : Session,
    (runPin s seq).1.s_pin = (ctrlRun (s.s_pin, s.s_pin_master) seq).1.1 ∧
    (runPin s seq).1.s_pin_master = (ctrlRun (s.s_pin, s.s_pin_master) seq).1.2 ∧
    (runPin s seq).1.s_pin_data =
      (replayOut s.s_pin_data (ctrlRun (s.s_pin, s.s_pin_master) seq).2).1 ∧
    (runPin s seq).2 = (replayOut s.s_pin_data (ctrlRun (s.s_pin, s.s_pin_master) seq).2).2 := by
  induction seq with
  | nil => exact fun s => ⟨rfl, rfl, rfl, rfl⟩
  | cons i rest ih =>
    intro s
    rcases i with ⟨ro, op, b⟩
    simp only [runPin, ctrlRun, replayOut]
    rw [doPin_step { s with s_master := ro } op b]
    refine ⟨?_, ?_, ?_, ?_⟩
    · exact (ih _).1
    · exact (ih _).2.1
    · exact (ih _).2.2.1
    · rw [(ih _).2.2.2]

/-- An IN_RAND control step is independent of the incoming control
state: it re-arms to `1 ||| GOT_IN_RAND` and records the sender. -/
theorem ctrlStep_inrand (c : Nat × Bool) (ro : Bool) (b : List Nat) :
    ctrlStep c (ro, LMP_IN_RAND, b) =
      ((1 ||| GOT_IN_RAND, ro), (some (0, b), none)) := rfl

/-- A control run starting with IN_RAND forgets the incoming control
state. -/
theorem ctrlRun_inrand_indep (c c' : Nat × Bool) (ro : Bool) (b : List Nat)
    (rest : List PinInput) :
    ctrlRun c ((ro, LMP_IN_RAND, b) :: rest) =
      ctrlRun c' ((ro, LMP_IN_RAND, b) :: rest) := by
  simp only [ctrlRun, ctrlStep_inrand]

/-- Control runs split over appended inputs. -/
theorem ctrlRun_append (c : Nat × Bool) (a b : List PinInput) :
    ctrlRun c (a ++ b) =
      ((ctrlRun (ctrlRun c a).1 b).1,
       (ctrlRun c a).2 ++ (ctrlRun (ctrlRun c a).1 b).2) := by
  induction a generalizing c with
  | nil => simp [ctrlRun]
  | cons i rest ih => simp [ctrlRun, ih]

/-- Replays split over appended step traces. -/
theorem replayOut_append (d : Fin 7 → List Nat) (a b : List PinStep) :
    replayOut d (a ++ b) =
      ((replayOut (replayOut d a).1 b).1,
       (replayOut d a).2 ++ (replayOut (replayOut d a).1 b).2) := by
  induction a generalizing d with
  | nil => simp [replayOut]
  | cons st rest ih => simp [replayOut, ih]

/-- A replay emits nothing exactly when no step of the trace emits —
in particular emission positions do not depend on the data. -/
theorem replayOut_outs_nil (d : Fin 7 → List Nat) (S : List PinStep) :
    (replayOut d S).2 = [] ↔ ∀ st ∈ S, st.2 = none := by
  induction S generalizing d with
  | nil => simp [replayOut]
  | cons st rest ih =>
    rcases hst : st.2 with _ | m <;>
      simp [replayOut, hst, ih]

/-- Every slot's transformation under a replayed step trace is a
constant prefix followed by the tail of the incoming slot: the
normal form of a composition of `memcpy`-style partial overwrites. -/
theorem replayOut_data_norm (S : List PinStep) (j : Fin 7) :
    ∃ p : List Nat, ∀ d : Fin 7 → List Nat,
      (replayOut d S).1 j = p ++ (d j).drop p.length := by
  induction S with
  | nil => exact ⟨[], fun d => by simp [replayOut]⟩
  | cons st rest ih =>
    obtain ⟨p, hp⟩ := ih
    have hcons : ∀ d : Fin 7 → List Nat,
        (replayOut d (st :: rest)).1 = (replayOut (applyStepD d st) rest).1 :=
      fun d => rfl
    rcases hst : st.1 with _ | jb
    · refine ⟨p, fun d => ?_⟩
      rw [hcons, hp]
      simp [applyStepD, hst]
    · by_cases hj : jb.1 = j
      · subst hj
        by_cases hle : p.length ≤ jb.2.length
        · refine ⟨p ++ jb.2.drop p.length, fun d => ?_⟩
          rw [hcons, hp]
          simp only [applyStepD, hst, Function.update_same, writeSlot]
          rw [List.drop_append_eq_append_drop, Nat.sub_eq_zero_of_le hle,
            List.drop_zero, List.length_append, List.length_drop]
          have hlen : p.length + (jb.2.length - p.length) = jb.2.length := by omega
          rw [hlen, List.append_assoc]
        · refine ⟨p, fun d => ?_⟩
          rw [hcons, hp]
          simp only [applyStepD, hst, Function.update_same, writeSlot]
          rw [List.drop_append_eq_append_drop,
            List.drop_eq_nil_of_le (by omega : jb.2.length ≤ p.length),
            List.nil_append, List.drop_drop]
          have hlen : jb.2.length + (p.length - jb.2.length) = p.length := by omega
          rw [hlen]
      · refine ⟨p, fun d => ?_⟩
        rw [hcons, hp]
        simp [applyStepD, hst, Function.update_noteq (Ne.symm hj)]

/-- Replaying a trace over its own final data changes nothing. -/
theorem replayOut_data_idem (d : Fin 7 → List Nat) (S : List PinStep) :
    (replayOut (replayOut d S).1 S).1 = (replayOut d S).1 := by
  funext j
  obtain ⟨p, hp⟩ := replayOut_data_norm S j
  rw [hp, hp, List.drop_left]

/-- Replaying a trace that emits only at its last step over its own
final data reproduces the same emission: the re-written slots already
hold their final values, and emission positions depend only on the
trace. -/
theorem replay_stable (d : Fin 7 → List Nat) (S6 : List PinStep) (st7 : PinStep)
    (m : Bool) (hnone6 : ∀ st ∈ S6, st.2 = none) (hm : st7.2 = some m) :
    (replayOut (replayOut d (S6 ++ [st7])).1 (S6 ++ [st7])).2 =
      (replayOut d (S6 ++ [st7])).2 := by
  have hz1 : (replayOut d S6).2 = [] := (replayOut_outs_nil _ _).mpr hnone6
  have hz2 : (replayOut (replayOut d (S6 ++ [st7])).1 S6).2 = [] :=
    (replayOut_outs_nil _ _).mpr hnone6
  have h1 := replayOut_append d S6 [st7]
  have h2 := replayOut_append (replayOut d (S6 ++ [st7])).1 S6 [st7]
  have hidem := replayOut_data_idem d (S6 ++ [st7])
  have hf1 : applyStepD (replayOut d S6).1 st7 = (replayOut d (S6 ++ [st7])).1 := by
    rw [h1]
    rfl
  have hf2 : applyStepD (replayOut (replayOut d (S6 ++ [st7])).1 S6).1 st7 =
      (replayOut (replayOut d (S6 ++ [st7])).1 (S6 ++ [st7])).1 := by
    rw [h2]
    rfl
  calc (replayOut (replayOut d (S6 ++ [st7])).1 (S6 ++ [st7])).2
      = (replayOut (replayOut d (S6 ++ [st7])).1 S6).2 ++
          (replayOut (replayOut (replayOut d (S6 ++ [st7])).1 S6).1 [st7]).2 := by
        rw [h2]
    _ = [renderD m (applyStepD (replayOut (replayOut d (S6 ++ [st7])).1 S6).1 st7)] := by
        rw [hz2]
        simp [replayOut, hm]
    _ = [renderD m (replayOut d (S6 ++ [st7])).1] := by rw [hf2, hidem]
    _ = [renderD m (applyStepD (replayOut d S6).1 st7)] := by rw [hf1]
    _ = (replayOut d S6).2 ++ (replayOut (replayOut d S6).1 [st7]).2 := by
        rw [hz1]
        simp [replayOut, hm]
    _ = (replayOut d (S6 ++ [st7])).2 := by rw [h1]

/-- C1: the pairing observer emits only when the switch drove the mask
to `0xFF`, re-arms to mask 1 immediately after emitting, and — fed the
same seven-opcode sequence (an IN_RAND-led exchange whose seventh step
produced the only emission) again — emits a second, identical line. -/
theorem pairing_gate_and_replay :
    (∀ s op buf s' o, doPin s op buf = (s', some o) →
        (∃ s1, pinUpdate s op buf = some s1 ∧ s1.s_pin = 0xFF) ∧ s'.s_pin = 1) ∧
    (∀ s seq o, seq.length = 7 →
        (∃ ro b rest, seq = (ro, LMP_IN_RAND, b) :: rest) →
        (runPin s (seq.take 6)).2 = [] →
        (runPin s seq).2 = [o] →
        (runPin (runPin s seq).1 seq).2 = [o]) := by
  constructor
  · intro s op buf s' o h
    unfold doPin at h
    split at h
    case h_1 =>
      injection h with hA hB
      exact Option.noConfusion hB
    case h_2 s1 heq =>
      split at h
      case isTrue hff =>
        injection h with hA hB
        refine ⟨⟨s1, heq, hff⟩, ?_⟩
        rw [← hA]
      case isFalse hff =>
        injection h with hA hB
        exact Option.noConfusion hB
  · intro s seq o hlen7 hin h6 h7
    obtain ⟨ro, b, rest, hseq⟩ := hin
    have hb1 := runPin_bridge seq s
    have hb6 := runPin_bridge (seq.take 6) s
    have hb2 := runPin_bridge seq (runPin s seq).1
    have hcs : ctrlRun ((runPin s seq).1.s_pin, (runPin s seq).1.s_pin_master) seq =
        ctrlRun (s.s_pin, s.s_pin_master) seq := by
      rw [hseq]
      exact ctrlRun_inrand_indep _ _ _ _ _
    rw [hcs] at hb2
    have hsplit : seq.take 6 ++ seq.drop 6 = seq := List.take_append_drop 6 seq
    have hlen1 : (seq.drop 6).length = 1 := by rw [List.length_drop, hlen7]
    obtain ⟨i7, hi7⟩ : ∃ i7, seq.drop 6 = [i7] := by
      rcases hdd : seq.drop 6 with _ | ⟨j7, rest7⟩
      · rw [hdd] at hlen1
        simp at hlen1
      · rcases rest7 with _ | ⟨j8, rest8⟩
        · exact ⟨j7, rfl⟩
        · rw [hdd] at hlen1
          simp at hlen1
    have happ := ctrlRun_append (s.s_pin, s.s_pin_master) (seq.take 6) (seq.drop 6)
    rw [hsplit, hi7] at happ
    have hsteps : (ctrlRun (s.s_pin, s.s_pin_master) seq).2 =
        (ctrlRun (s.s_pin, s.s_pin_master) (seq.take 6)).2 ++
          [(ctrlStep (ctrlRun (s.s_pin, s.s_pin_master) (seq.take 6)).1 i7).2] := by
      rw [happ]
      rfl
    have hout6 : (replayOut s.s_pin_data
        (ctrlRun (s.s_pin, s.s_pin_master) (seq.take 6)).2).2 = [] := by
      rw [← hb6.2.2.2]
      exact h6
    have hnone6 := (replayOut_outs_nil s.s_pin_data _).mp hout6
    rcases hm : (ctrlStep (ctrlRun (s.s_pin, s.s_pin_master) (seq.take 6)).1 i7).2.2
      with _ | m
    · exfalso
      have hall : (runPin s seq).2 = [] := by
        rw [hb1.2.2.2, hsteps]
        apply (replayOut_outs_nil _ _).mpr
        intro st hst
        rcases List.mem_append.mp hst with hst | hst
        · exact hnone6 st hst
        · rw [List.mem_singleton.mp hst]
          exact hm
      rw [h7] at hall
      exact List.noConfusion hall
    · rw [hb2.2.2.2, hb1.2.2.1, hsteps]
      rw [replay_stable s.s_pin_data _ _ m hnone6 hm]
      rw [← hsteps, ← hb1.2.2.2]
      exact h7

/-- A session one SRES short of a full transcript. -/
def c1emitS : Session := { demoS with s_pin := 127 }

/-- The line emitted from `c1emitS` by the final SRES. -/
def c1o : PinOut :=
  ⟨true,
   [List.replicate 16 0, List.replicate 16 0, List.replicate 16 0,
    List.replicate 16 0, List.replicate 16 0, [9, 9, 9, 9], List.replicate 4 0]⟩

/-- C1 witness: the gate clause at a concrete emitting step, and the
replay clause at the concrete `demo7` exchange. -/
theorem pairing_gate_and_replay_witness :
    ((∃ s1, pinUpdate c1emitS LMP_SRES [9, 9, 9, 9] = some s1 ∧ s1.s_pin = 0xFF) ∧
      (doPin c1emitS LMP_SRES [9, 9, 9, 9]).1.s_pin = 1) ∧
    demo7.length = 7 ∧
    (runPin demoS (demo7.take 6)).2 = [] ∧
    (runPin demoS demo7).2 = [demoOut] ∧
    (runPin (runPin demoS demo7).1 demo7).2 = [demoOut] :=
  ⟨pairing_gate_and_replay.1 c1emitS LMP_SRES [9, 9, 9, 9]
      (doPin c1emitS LMP_SRES [9, 9, 9, 9]).1 c1o (by decide),
   rfl, by decide, by decide,
   pairing_gate_and_replay.2 demoS demo7 demoOut rfl
     ⟨true, List.replicate 16 0x11, _, rfl⟩ (by decide) (by decide)⟩

end Csniff
